import Mathlib

/-!
Verification model of the reactivity core and template optimizer of the
repository (a Vue-2 style framework): the dependency channel
(src/core/observer/dep.js), the observer / reactive property machinery
(observer module), and the static-subtree optimizer (src/compiler/optimizer.js).
All definitions are shallow embeddings translated from the JavaScript source.
-/

namespace DepModel

/-- A subscriber (Watcher) as seen by Dep.notify: its creation id, and an
abstract flag telling whether its update() call throws. -/
structure Watcher where
  id : Nat
  fails : Bool
deriving DecidableEq

/-- The visit order produced by Dep.notify (src/core/observer/dep.js lines
40-56).  The subscriber list is snapshotted (subs.slice()); then, only when
the build is not a production build and config.async is false, the snapshot
is sorted ascending by id (JS sort with comparator a.id - b.id, stable); the
update calls then run over the resulting list in order. -/
def byId (a b : Watcher) : Prop := a.id ≤ b.id

instance : DecidableRel byId := fun a b => Nat.decLe a.id b.id

instance : IsTotal Watcher byId := ⟨fun a b => Nat.le_total a.id b.id⟩

instance : IsTrans Watcher byId := ⟨fun _ _ _ h h2 => Nat.le_trans h h2⟩

def notifyOrder (production async : Bool) (subs : List Watcher) : List Watcher :=
  let snapshot := subs
  if ¬production ∧ ¬async then
    snapshot.insertionSort byId
  else
    snapshot

/-- The for-loop of Dep.notify running subs[i].update(): a thrown update
propagates out of notify, so iteration stops at the first failing
subscriber.  Returns the list of subscribers whose update() was invoked and
whether an exception escaped. -/
def runUpdates : List Watcher → List Watcher × Bool
  | [] => ([], false)
  | w :: rest =>
    if w.fails then ([w], true)
    else (w :: (runUpdates rest).1, (runUpdates rest).2)

/-- The subscribers that receive update() during Dep.notify, with the
escaped-exception flag. -/
def updateCalls (production async : Bool) (subs : List Watcher) : List Watcher × Bool :=
  runUpdates (notifyOrder production async subs)

/-- Ascending creation-id order. -/
def idsAscending (l : List Watcher) : Prop :=
  l.Pairwise byId

instance : DecidablePred idsAscending := fun l => by
  unfold idsAscending; infer_instance

end DepModel

namespace OptModel

/-- The three flags written by the optimizer passes; absent (none) before the
pass writes them, matching the undefined JS fields of a freshly parsed node. -/
structure MarkFlags where
  static : Option Bool
  staticRoot : Option Bool
  staticInFor : Option Bool
deriving DecidableEq

/-- Fresh flags as produced by the parser: all fields absent. -/
def MarkFlags.fresh : MarkFlags := ⟨none, none, none⟩

/-- A template AST node as consumed by src/compiler/optimizer.js.
element is type 1 (tag, presence of the inline-template attribute, the pre /
hasBindings / if / for / once markers, the list of own data keys checked
against the static-key whitelist, computed flags, ordered children, and the
non-first blocks of the ifConditions list — ifConditions[0].block is the node
itself in the JS data structure, so only the blocks from index 1 are stored).
exprText is type 2 (interpolated text), plainText is type 3. -/
inductive ASTNode where
  | element (tag : String)
      (hasInlineTemplate pre hasBindings hasIf hasFor once : Bool)
      (nodeKeys : List String) (flags : MarkFlags)
      (children : List ASTNode) (ifBlocks : List ASTNode)
  | exprText (flags : MarkFlags)
  | plainText (flags : MarkFlags)

/-- JS truthiness of a possibly-undefined boolean field. -/
def truthy (o : Option Bool) : Bool := o.getD false

def topFlags : ASTNode → MarkFlags
  | .element _ _ _ _ _ _ _ _ fl _ _ => fl
  | .exprText fl => fl
  | .plainText fl => fl

def topStatic (n : ASTNode) : Option Bool := (topFlags n).static

def topStaticRoot (n : ASTNode) : Option Bool := (topFlags n).staticRoot

def topStaticInFor (n : ASTNode) : Option Bool := (topFlags n).staticInFor

def childrenOf : ASTNode → List ASTNode
  | .element _ _ _ _ _ _ _ _ _ cs _ => cs
  | _ => []

def ifBlocksOf : ASTNode → List ASTNode
  | .element _ _ _ _ _ _ _ _ _ _ bs => bs
  | _ => []

def isPlainTextNode : ASTNode → Bool
  | .plainText _ => true
  | _ => false

/-- isBuiltInTag = makeMap over slot,component. -/
def isBuiltInTag (t : String) : Bool := t == "slot" || t == "component"

/-- isDirectChildOfTemplateFor (optimizer.js lines 128-139), expressed over
the ancestor chain of the node (nearest first, each entry giving the tag of
the ancestor and whether it has a for directive): walk up while the ancestor
tag is template, answering true at the first such ancestor with a for. -/
def isDirectChildOfTemplateForA : List (String × Bool) → Bool
  | [] => false
  | (tag, hasFor) :: rest =>
    if tag ≠ "template" then false
    else if hasFor then true
    else isDirectChildOfTemplateForA rest

/-- isStatic (optimizer.js lines 107-126), parameterized by the module-level
isPlatformReservedTag and isStaticKey predicates and by the ancestor chain
used for the parent walk. -/
def isStaticV (resv staticKey : String → Bool) (anc : List (String × Bool)) :
    ASTNode → Bool
  | .exprText _ => false
  | .plainText _ => true
  | .element tag _ pre hasBindings hasIf hasFor _ nodeKeys _ _ _ =>
    pre ||
      (!hasBindings && !hasIf && !hasFor && !(isBuiltInTag tag) && resv tag &&
        !(isDirectChildOfTemplateForA anc) && nodeKeys.all staticKey)

mutual

/-- markStatic (optimizer.js lines 44-74): set the static flag from isStatic;
for an element that is not a reserved tag, not slot, and has no
inline-template attribute, stop; otherwise mark children and non-first
conditional blocks, a non-static child or block forcing static false.
Children extend the ancestor chain with this node; conditional blocks share
the parent of this node itself, hence the unchanged chain. -/
def markStaticV (resv staticKey : String → Bool) (anc : List (String × Bool)) :
    ASTNode → ASTNode
  | .exprText fl =>
    .exprText { fl with static := some (isStaticV resv staticKey anc (.exprText fl)) }
  | .plainText fl =>
    .plainText { fl with static := some (isStaticV resv staticKey anc (.plainText fl)) }
  | .element tag it pre hb hif hfor onc keys fl children ifBlocks =>
    let st := isStaticV resv staticKey anc
      (.element tag it pre hb hif hfor onc keys fl children ifBlocks)
    if ¬ resv tag ∧ tag ≠ "slot" ∧ ¬ it then
      .element tag it pre hb hif hfor onc keys { fl with static := some st }
        children ifBlocks
    else
      let children' := markStaticListV resv staticKey ((tag, hfor) :: anc) children
      let st1 := st && children'.all (fun c => truthy (topStatic c))
      let ifBlocks' := markStaticListV resv staticKey anc ifBlocks
      let st2 := st1 && ifBlocks'.all (fun b => truthy (topStatic b))
      .element tag it pre hb hif hfor onc keys { fl with static := some st2 }
        children' ifBlocks'

def markStaticListV (resv staticKey : String → Bool) (anc : List (String × Bool)) :
    List ASTNode → List ASTNode
  | [] => []
  | n :: rest =>
    markStaticV resv staticKey anc n :: markStaticListV resv staticKey anc rest

end

/-- The static-root qualification test of markStaticRoots (lines 84-88):
static, at least one child, and the children are not exactly one plain-text
node. -/
def qualifiesRoot (fl : MarkFlags) (children : List ASTNode) : Bool :=
  truthy fl.static && !children.isEmpty &&
    !(children.length == 1 && (match children with
        | c :: _ => isPlainTextNode c
        | [] => false))

mutual

/-- markStaticRoots (optimizer.js lines 76-105): for element nodes, record
staticInFor when static or once; mark a qualifying node staticRoot true and
stop; otherwise staticRoot false, then recurse into children with
isInFor OR the for marker of this node, and into non-first conditional
blocks with isInFor unchanged. -/
def markStaticRootsV (isInFor : Bool) : ASTNode → ASTNode
  | .element tag it pre hb hif hfor onc keys fl children ifBlocks =>
    let fl1 := if truthy fl.static || onc then { fl with staticInFor := some isInFor } else fl
    if qualifiesRoot fl1 children then
      .element tag it pre hb hif hfor onc keys { fl1 with staticRoot := some true }
        children ifBlocks
    else
      let fl2 := { fl1 with staticRoot := some false }
      let children' := markStaticRootsListV (isInFor || hfor) children
      let ifBlocks' := markStaticRootsListV isInFor ifBlocks
      .element tag it pre hb hif hfor onc keys fl2 children' ifBlocks'
  | n => n

def markStaticRootsListV (isInFor : Bool) : List ASTNode → List ASTNode
  | [] => []
  | n :: rest => markStaticRootsV isInFor n :: markStaticRootsListV isInFor rest

end

/-- The whitelist body of genStaticKeys (optimizer.js lines 37-42). -/
def baseStaticKeys : List String :=
  ["type", "tag", "attrsList", "attrsMap", "plain", "parent", "children",
   "attrs", "start", "end", "rawAttrsMap"]

/-- genStaticKeys over the optional extra staticKeys of the options. -/
def genStaticKeysV (extra : List String) : String → Bool :=
  fun k => (baseStaticKeys ++ extra).contains k

/-- optimize (optimizer.js lines 25-35): nothing on a missing root, else the
two passes in order, the second started with isInFor false. -/
def optimizeV (resv staticKey : String → Bool) (root : Option ASTNode) : Option ASTNode :=
  root.map (fun r => markStaticRootsV false (markStaticV resv staticKey [] r))

/-- The staticInFor update at the top of markStaticRoots. -/
def updInFor (isInFor onc : Bool) (fl : MarkFlags) : MarkFlags :=
  if truthy fl.static || onc then { fl with staticInFor := some isInFor } else fl

/-- A v-for element, not static, with a v-once child and a v-once non-first
conditional block, used to observe the isInFor flag each of them receives. -/
def c9Child : ASTNode :=
  .element "p" false false false false false true [] ⟨some false, none, none⟩ [] []

def c9Block : ASTNode :=
  .element "span" false false false false false true [] ⟨some false, none, none⟩ [] []

def c9Node : ASTNode :=
  .element "div" false false false false true false [] ⟨some false, none, none⟩
    [c9Child] [c9Block]

end OptModel

namespace ObsModel

/-- The Observer attached to a value through its __ob__ marker: the observer
identity, the id of its whole-object Dep, and vmCount (the number of vms
holding the value as root $data). -/
structure ObRec where
  obId : Nat
  depId : Nat
  vmCount : Nat
deriving DecidableEq

mutual

/-- A JavaScript value as handled by the observer module.  Objects carry an
identity tag oid (two object values are strictly equal exactly when their
oids agree), the optional __ob__ marker, and their extensibility / _isVue /
VNode discriminators.  plainObj values list their own enumerable properties
in insertion order together with the names of properties inherited from
their prototype chain below Object.prototype; arrayObj values keep their
elements and whether their prototype was augmented with the intercepted
array methods. -/
inductive JSVal where
  | undef
  | nullv
  | boolean (b : Bool)
  | num (n : Int)
  | nan
  | str (s : String)
  | plainObj (oid : Nat) (ob : Option ObRec) (extensible isVue : Bool)
      (fields : List (String × PropDesc)) (protoKeys : List String)
  | arrayObj (oid : Nat) (ob : Option ObRec) (extensible augmented : Bool)
      (elems : List JSVal)
  | otherObj (oid : Nat) (ob : Option ObRec) (isVNode : Bool)

/-- A property descriptor: a plain data property, a pre-defined accessor
property (the value its getter yields, if it has one, and whether it has a
setter), or the accessor pair installed by defineReactive, closing over its
Dep id, the original getter/setter presence, the value the original getter
yields, the captured val, and the shallow flag. -/
inductive PropDesc where
  | data (v : JSVal) (configurable : Bool)
  | accessor (getterVal : Option JSVal) (hasSetter configurable : Bool)
  | reactive (depId : Nat) (hasGetter hasSetter : Bool) (getterVal : JSVal)
      (val : JSVal) (shallow : Bool)

end

/-- The module-level state the observer touches: the Dep and Observer id
counters, the ordered log of dep ids on which notify() was called, the count
of development warnings, and the shouldObserve / isServerRendering /
NODE_ENV-production flags. -/
structure RState where
  nextDepId : Nat
  nextObId : Nat
  notifyLog : List Nat
  warnCount : Nat
  shouldObserve : Bool
  isServerRendering : Bool
  production : Bool
deriving DecidableEq

def warnDev (s : RState) : RState := { s with warnCount := s.warnCount + 1 }

def notifyDep (d : Nat) (s : RState) : RState := { s with notifyLog := s.notifyLog ++ [d] }

def isObjectV : JSVal → Bool
  | .plainObj .. => true
  | .arrayObj .. => true
  | .otherObj .. => true
  | _ => false

def isVNodeV : JSVal → Bool
  | .otherObj _ _ vn => vn
  | _ => false

def isArrayV : JSVal → Bool
  | .arrayObj .. => true
  | _ => false

def isPlainObjectV : JSVal → Bool
  | .plainObj .. => true
  | _ => false

def isExtensibleV : JSVal → Bool
  | .plainObj _ _ ext _ _ _ => ext
  | .arrayObj _ _ ext _ _ => ext
  | .otherObj .. => true
  | _ => false

def isVueV : JSVal → Bool
  | .plainObj _ _ _ vue _ _ => vue
  | _ => false

/-- isUndef: undefined or null. -/
def isUndefV : JSVal → Bool
  | .undef => true
  | .nullv => true
  | _ => false

/-- isPrimitive: string, number or boolean (symbols not modeled). -/
def isPrimitiveV : JSVal → Bool
  | .str _ => true
  | .num _ => true
  | .nan => true
  | .boolean _ => true
  | _ => false

def getTopOb : JSVal → Option ObRec
  | .plainObj _ ob _ _ _ _ => ob
  | .arrayObj _ ob _ _ _ => ob
  | .otherObj _ ob _ => ob
  | _ => none

def setTopOb (r : ObRec) : JSVal → JSVal
  | .plainObj oid _ ext vue fields proto => .plainObj oid (some r) ext vue fields proto
  | .arrayObj oid _ ext aug elems => .arrayObj oid (some r) ext aug elems
  | .otherObj oid _ vn => .otherObj oid (some r) vn
  | v => v

/-- JavaScript strict equality: structural on primitives, NaN unequal to
everything including itself, identity (oid) on objects. -/
def jsTripleEq : JSVal → JSVal → Bool
  | .undef, .undef => true
  | .nullv, .nullv => true
  | .boolean a, .boolean b => a == b
  | .num a, .num b => a == b
  | .str a, .str b => a == b
  | .plainObj o _ _ _ _ _, .plainObj p _ _ _ _ _ => o == p
  | .arrayObj o _ _ _ _, .arrayObj p _ _ _ _ => o == p
  | .otherObj o _ _, .otherObj p _ _ => o == p
  | _, _ => false

/-- Coercion of a property key to a string, as the in-operator and property
assignment do. -/
def keyToString : JSVal → String
  | .str s => s
  | .num n => toString n
  | .nan => "NaN"
  | .boolean b => cond b "true" "false"
  | .undef => "undefined"
  | .nullv => "null"
  | _ => "[object Object]"

/-- The own property names of Object.prototype. -/
def objectProtoKeys : List String :=
  ["constructor", "hasOwnProperty", "isPrototypeOf", "propertyIsEnumerable",
   "toLocaleString", "toString", "valueOf", "__defineGetter__",
   "__defineSetter__", "__lookupGetter__", "__lookupSetter__", "__proto__"]

/-- Principal own property names of Array.prototype (abridged to the
commonly used members; only their presence matters here). -/
def arrayProtoKeys : List String :=
  ["push", "pop", "shift", "unshift", "splice", "sort", "reverse", "concat",
   "join", "slice", "indexOf", "lastIndexOf", "forEach", "map", "filter",
   "reduce", "includes", "find", "findIndex", "every", "some", "fill",
   "keys", "values", "entries", "flat"]

/-- The in-operator over the modeled object shapes (the caller guards the
primitive case, on which the operator throws). -/
def keyInV (k : String) : JSVal → Bool
  | .plainObj _ _ _ _ fields proto =>
    (fields.lookup k).isSome || proto.contains k || objectProtoKeys.contains k
  | .arrayObj _ _ _ _ elems =>
    (match k.toNat? with
      | some i => decide (i < elems.length)
      | none => false)
      || k == "length" || arrayProtoKeys.contains k || objectProtoKeys.contains k
  | .otherObj _ _ _ => objectProtoKeys.contains k
  | _ => false

/-- isValidArrayIndex of shared/util: a finite non-negative integer (digit
strings included; scientific-notation strings are not modeled). -/
def isValidArrayIndexV : JSVal → Bool
  | .num n => decide (0 ≤ n)
  | .str s => s.toNat?.isSome
  | _ => false

def keyIndex : JSVal → Nat
  | .num n => n.toNat
  | .str s => s.toNat?.getD 0
  | _ => 0

/-- The value obj[key] yields for a descriptor, with no active subscriber
(so the reactive getter only returns its value). -/
def readDesc : PropDesc → JSVal
  | .data v _ => v
  | .accessor gv _ _ => gv.getD .undef
  | .reactive _ hG _ gv v _ => if hG then gv else v

def descConfigurable : PropDesc → Bool
  | .data _ c => c
  | .accessor _ _ c => c
  | .reactive _ _ _ _ _ _ => true

/-- Whether a descriptor has a getter, and whether it has a setter; the
accessors installed by defineReactive always have both. -/
def descGetter : PropDesc → Bool
  | .data _ _ => false
  | .accessor gv _ _ => gv.isSome
  | .reactive _ _ _ _ _ _ => true

def descSetter : PropDesc → Bool
  | .data _ _ => false
  | .accessor _ hs _ => hs
  | .reactive _ _ _ _ _ _ => true

/-- Replace (in place) or append a property. -/
def setField : List (String × PropDesc) → String → PropDesc → List (String × PropDesc)
  | [], k, d => [(k, d)]
  | (k0, d0) :: rest, k, d =>
    if k0 == k then (k0, d) :: rest else (k0, d0) :: setField rest k d

mutual

/-- observe (observer module, lines 266-291): nothing for non-objects and
VNodes; the existing wrapper when the value carries one; otherwise, when
shouldObserve holds, not server rendering, the value is an array or plain
object, extensible, and not a Vue instance, a fresh Observer is constructed
(def of the __ob__ marker, then array augmentation plus observeArray, or
walk).  asRootData increments vmCount on the returned wrapper.  The Nat
argument is recursion fuel; none reports fuel exhaustion, never a source
behavior. -/
def observeV : Nat → RState → JSVal → Bool → Option (Option ObRec × JSVal × RState)
  | 0, _, _, _ => none
  | fuel + 1, s, v, asRoot =>
    if ¬ isObjectV v ∨ isVNodeV v then some (none, v, s)
    else
      match (match getTopOb v with
        | some r => some (some r, v, s)
        | none =>
          if s.shouldObserve ∧ ¬ s.isServerRendering ∧ (isArrayV v ∨ isPlainObjectV v)
              ∧ isExtensibleV v ∧ ¬ isVueV v then
            let r : ObRec := ⟨s.nextObId, s.nextDepId, 0⟩
            let s1 : RState :=
              { s with nextObId := s.nextObId + 1, nextDepId := s.nextDepId + 1 }
            match setTopOb r v with
            | .arrayObj oid ob ext _ elems =>
              match observeElemsV fuel s1 elems with
              | none => none
              | some (elems2, s2) => some (some r, .arrayObj oid ob ext true elems2, s2)
            | .plainObj oid ob ext vue fields proto =>
              match walkFieldsV fuel s1 (fields.map Prod.fst) fields with
              | none => none
              | some (fields2, s2) =>
                some (some r, .plainObj oid ob ext vue fields2 proto, s2)
            | v2 => some (some r, v2, s1)
          else some (none, v, s) : Option (Option ObRec × JSVal × RState)) with
      | none => none
      | some (none, v1, s1) => some (none, v1, s1)
      | some (some r, v1, s1) =>
        if asRoot then
          let r2 : ObRec := { r with vmCount := r.vmCount + 1 }
          some (some r2, setTopOb r2 v1, s1)
        else some (some r, v1, s1)

/-- observeArray: observe each element. -/
def observeElemsV : Nat → RState → List JSVal → Option (List JSVal × RState)
  | 0, _, _ => none
  | _ + 1, s, [] => some ([], s)
  | fuel + 1, s, e :: rest =>
    match observeV fuel s e false with
    | none => none
    | some (_, e2, s1) =>
      match observeElemsV fuel s1 rest with
      | none => none
      | some (rest2, s2) => some (e2 :: rest2, s2)

/-- walk: defineReactive over the snapshot of own keys, threading the
evolving property record. -/
def walkFieldsV : Nat → RState → List String → List (String × PropDesc) →
    Option (List (String × PropDesc) × RState)
  | 0, _, _, _ => none
  | _ + 1, s, [], fields => some (fields, s)
  | fuel + 1, s, k :: ks, fields =>
    match defineReactiveFieldsV fuel s fields k none false with
    | none => none
    | some (fields1, s1) => walkFieldsV fuel s1 ks fields1

/-- defineReactive (observer module, lines 296-369), acting on the property
record of the target object.  A Dep is allocated first; a non-configurable
existing property aborts; the captured val is the explicit third argument
when one was passed, else the property value unless the property is a
getter-without-setter; the val is deep-observed unless shallow; the property
is redefined as the reactive accessor pair. -/
def defineReactiveFieldsV : Nat → RState → List (String × PropDesc) → String →
    Option JSVal → Bool → Option (List (String × PropDesc) × RState)
  | 0, _, _, _, _, _ => none
  | fuel + 1, s, fields, key, valArg, shallow =>
    let dep := s.nextDepId
    let s1 : RState := { s with nextDepId := s.nextDepId + 1 }
    match fields.lookup key with
    | some d =>
      if descConfigurable d = false then some (fields, s1)
      else
        let hG := descGetter d
        let hS := descSetter d
        let val := match valArg with
          | some v => v
          | none => if ¬ hG ∨ hS then readDesc d else .undef
        let gv := readDesc d
        (match (if shallow then some (none, val, s1) else observeV fuel s1 val false) with
          | none => none
          | some (_, val2, s2) =>
            some (setField fields key (.reactive dep hG hS gv val2 shallow), s2))
    | none =>
      let val := match valArg with
        | some v => v
        | none => .undef
      (match (if shallow then some (none, val, s1) else observeV fuel s1 val false) with
        | none => none
        | some (_, val2, s2) =>
          some (setField fields key (.reactive dep false false .undef val2 shallow), s2))

end

/-- defineReactive on a whole plain-object target (non-objects and other
shapes have no modeled property record and are returned unchanged). -/
def defineReactiveV (fuel : Nat) (s : RState) (target : JSVal) (key : String)
    (valArg : Option JSVal) (shallow : Bool) : Option (JSVal × RState) :=
  match target with
  | .plainObj oid ob ext vue fields proto =>
    match defineReactiveFieldsV fuel s fields key valArg shallow with
    | none => none
    | some (fields2, s2) => some (.plainObj oid ob ext vue fields2 proto, s2)
  | v => some (v, s)

/-- reactiveSetter (observer module, lines 345-367) over the captured state
of one reactive property: skip when the new value is strictly equal to the
current one or both are NaN (the current value read through the original
getter when present); ignore writes to getter-without-setter properties;
otherwise forward to the original setter or store, re-observe the new value
unless shallow, and notify the Dep of the property.  Returns the captured
val, the state, and whether notify ran. -/
def reactiveSetterV (fuel : Nat) (s : RState) (depId : Nat)
    (hasGetter hasSetter : Bool) (getterVal val : JSVal) (shallow : Bool)
    (newVal : JSVal) : Option (JSVal × RState × Bool) :=
  let value := if hasGetter then getterVal else val
  if jsTripleEq newVal value || (!(jsTripleEq newVal newVal) && !(jsTripleEq value value)) then
    some (val, s, false)
  else if hasGetter && !hasSetter then some (val, s, false)
  else
    match (if shallow then some (none, newVal, s) else observeV fuel s newVal false) with
    | none => none
    | some (_, newVal2, s1) =>
      let val2 := if hasSetter then val else newVal2
      some (val2, notifyDep depId s1, true)

/-- A plain property assignment target[k] = v: a data property is
overwritten, a reactive property runs its reactiveSetter, a pre-defined
accessor forwards to its external setter (no modeled effect) or is silently
ignored without one, an absent key becomes a fresh own data property on an
extensible object.  Direct index assignment on arrays is not intercepted;
other array properties and exotic targets are left unmodeled. -/
def plainWriteV (fuel : Nat) (s : RState) (target : JSVal) (k : String)
    (v : JSVal) : Option (JSVal × RState) :=
  match target with
  | .plainObj oid ob ext vue fields proto =>
    match fields.lookup k with
    | some (.data _ c) =>
      some (.plainObj oid ob ext vue (setField fields k (.data v c)) proto, s)
    | some (.accessor _ _ _) => some (target, s)
    | some (.reactive d hG hS gv val sh) =>
      match reactiveSetterV fuel s d hG hS gv val sh v with
      | none => none
      | some (val2, s1, _) =>
        some (.plainObj oid ob ext vue
          (setField fields k (.reactive d hG hS gv val2 sh)) proto, s1)
    | none =>
      if ext then
        some (.plainObj oid ob ext vue (fields ++ [(k, .data v true)]) proto, s)
      else some (target, s)
  | .arrayObj oid ob ext aug elems =>
    match k.toNat? with
    | some i =>
      if i < elems.length then some (.arrayObj oid ob ext aug (elems.set i v), s)
      else some (target, s)
    | none => some (target, s)
  | t => some (t, s)

/-- The outcome of set: a result, a thrown TypeError, or model fuel
exhaustion (never a source behavior). -/
inductive JSOutcome (α : Type) where
  | ok (a : α)
  | thrown
  | fuelOut

/-- set (observer module, lines 376-405): warn on undefined/primitive
targets in development; valid array indices go through the intercepted
splice (growing the length first); keys present behind the in-operator but
not on Object.prototype take a plain assignment; Vue instances and root
$data targets are rejected with a development warning; unobserved targets
take a plain assignment; otherwise the key is defined reactive on the
observed value and the whole-object Dep is notified.  Returns the returned
value, the updated target, and the state. -/
def setV (fuel : Nat) (s0 : RState) (target key val : JSVal) :
    JSOutcome (JSVal × JSVal × RState) :=
  let s := if ¬ s0.production ∧ (isUndefV target || isPrimitiveV target) then warnDev s0 else s0
  if isArrayV target ∧ isValidArrayIndexV key then
    match target with
    | .arrayObj oid ob ext aug elems =>
      let i := keyIndex key
      let padded :=
        if i ≤ elems.length then elems
        else elems ++ List.replicate (i - elems.length) .undef
      match ob with
      | some r =>
        match observeV fuel s val false with
        | none => .fuelOut
        | some (_, val2, s1) =>
          let spliced := if i < padded.length then padded.set i val2 else padded ++ [val2]
          .ok (val, .arrayObj oid (some r) ext aug spliced, notifyDep r.depId s1)
      | none =>
        let spliced := if i < padded.length then padded.set i val else padded ++ [val]
        .ok (val, .arrayObj oid none ext aug spliced, s)
    | _ => .thrown
  else if ¬ isObjectV target then .thrown
  else
    let k := keyToString key
    if keyInV k target ∧ ¬ objectProtoKeys.contains k then
      match plainWriteV fuel s target k val with
      | none => .fuelOut
      | some (t2, s2) => .ok (val, t2, s2)
    else if isVueV target || (match getTopOb target with
        | some r => decide (r.vmCount ≠ 0)
        | none => false) then
      .ok (val, target, if ¬ s.production then warnDev s else s)
    else
      match getTopOb target with
      | none =>
        match plainWriteV fuel s target k val with
        | none => .fuelOut
        | some (t2, s2) => .ok (val, t2, s2)
      | some r =>
        match defineReactiveV fuel s target k (some val) false with
        | none => .fuelOut
        | some (t2, s2) => .ok (val, t2, notifyDep r.depId s2)

def c2State : RState := ⟨1, 1, [], 0, true, false, true⟩

def c6State : RState := ⟨1, 1, [], 0, true, false, true⟩

def c7State : RState := ⟨1, 1, [], 0, true, false, true⟩

def c8State : RState := ⟨0, 0, [], 0, true, false, true⟩

def c8Val : JSVal := .plainObj 0 (some ⟨0, 0, 0⟩) true false [] []

def c10State : RState := ⟨0, 0, [], 0, true, false, true⟩

end ObsModel

open DepModel
open OptModel
open ObsModel

/-- Every update call of runUpdates: subscribers strictly before the first
failing one, then the first failing one itself; the exception flag is
whether some subscriber fails. -/
theorem runUpdates_eq (l : List Watcher) :
    runUpdates l
      = (l.takeWhile (fun w => !w.fails) ++ (l.dropWhile (fun w => !w.fails)).take 1,
         l.any (fun w => w.fails)) := by
  induction l with
  | nil => rfl
  | cons w rest ih =>
    by_cases h : w.fails = true
    · simp [runUpdates, List.takeWhile_cons, List.dropWhile_cons, h]
    · simp only [Bool.not_eq_true] at h
      simp [runUpdates, List.takeWhile_cons, List.dropWhile_cons, h, ih]

theorem runUpdates_no_fail (l : List Watcher) (h : ∀ w ∈ l, w.fails = false) :
    runUpdates l = (l, false) := by
  induction l with
  | nil => rfl
  | cons w rest ih =>
    have hw := h w (List.mem_cons_self w rest)
    simp [runUpdates, hw, ih (fun x hx => h x (List.mem_cons_of_mem w hx))]

/-- Claim C1, as stated, is false: in a production build with config.async
disabled (still a synchronous mode), Dep.notify does not sort the snapshot,
so subscribers with descending ids are visited out of creation-id order. -/
theorem C1_counterexample :
    DepModel.notifyOrder true false [⟨2, false⟩, ⟨1, false⟩] = [⟨2, false⟩, ⟨1, false⟩] ∧
    ¬ DepModel.idsAscending (DepModel.notifyOrder true false [⟨2, false⟩, ⟨1, false⟩]) := by
  constructor
  · rfl
  · decide

/-- Claim C1 (amended): only in a non-production build with config.async
disabled does Dep.notify visit the snapshot subscribers exactly once each
(a permutation of the snapshot) in ascending creation-id order; in a
production build the snapshot is visited in list (insertion) order, sorted
or not; and when no update fails, the update calls are exactly the visit
order. -/
theorem C1_dev_sync_sorted (subs : List Watcher) :
    (notifyOrder false false subs).Perm subs ∧
    idsAscending (notifyOrder false false subs) ∧
    (∀ async, notifyOrder true async subs = subs) ∧
    ((∀ w ∈ subs, w.fails = false) →
      (updateCalls false false subs).1 = notifyOrder false false subs) := by
  refine ⟨?_, ?_, ?_, ?_⟩
  · simpa [notifyOrder] using List.perm_insertionSort byId subs
  · simpa [notifyOrder, idsAscending] using List.sorted_insertionSort byId subs
  · intro async; simp [notifyOrder]
  · intro h
    have hmem : ∀ w ∈ notifyOrder false false subs, w.fails = false := by
      intro w hw
      apply h
      have : (notifyOrder false false subs).Perm subs := by
        simpa [notifyOrder] using List.perm_insertionSort byId subs
      exact this.mem_iff.mp hw
    simp [updateCalls, runUpdates_no_fail _ hmem]

/-- Witness for C1 on a concrete subscriber list. -/
theorem C1_dev_sync_sorted_witness :
    DepModel.idsAscending (DepModel.notifyOrder false false [⟨5, false⟩, ⟨3, false⟩]) ∧
    (DepModel.updateCalls false false [⟨5, false⟩, ⟨3, false⟩]).1
      = DepModel.notifyOrder false false [⟨5, false⟩, ⟨3, false⟩] :=
  ⟨(C1_dev_sync_sorted [⟨5, false⟩, ⟨3, false⟩]).2.1,
   (C1_dev_sync_sorted [⟨5, false⟩, ⟨3, false⟩]).2.2.2 (by decide)⟩

/-- Claim C3, as stated, is false: the for-loop in Dep.notify has no
per-subscriber error isolation, so when the first subscriber update throws,
the second subscriber never receives update(). -/
theorem C3_counterexample :
    (DepModel.updateCalls false false [⟨1, true⟩, ⟨2, false⟩]).1 = [⟨1, true⟩] ∧
    (⟨2, false⟩ : DepModel.Watcher) ∉ (DepModel.updateCalls false false [⟨1, true⟩, ⟨2, false⟩]).1 ∧
    (DepModel.updateCalls false false [⟨1, true⟩, ⟨2, false⟩]).2 = true := by
  refine ⟨rfl, by decide, rfl⟩

/-- Claim C3 (amended): a failing subscriber update aborts Dep.notify; the
subscribers receiving update() are exactly those up to and including the
first failing one in the visit order, and the exception escapes notify iff
some visited subscriber fails. -/
theorem C3_failure_aborts (production async : Bool) (subs : List Watcher) :
    (updateCalls production async subs).1
      = (notifyOrder production async subs).takeWhile (fun w => !w.fails)
        ++ ((notifyOrder production async subs).dropWhile (fun w => !w.fails)).take 1 ∧
    (updateCalls production async subs).2
      = (notifyOrder production async subs).any (fun w => w.fails) := by
  have h := runUpdates_eq (notifyOrder production async subs)
  constructor
  · exact congrArg Prod.fst h
  · exact congrArg Prod.snd h

theorem markStaticRootsListV_eq_map (f : Bool) (l : List ASTNode) :
    markStaticRootsListV f l = l.map (markStaticRootsV f) := by
  induction l with
  | nil => rfl
  | cons n rest ih => simp [markStaticRootsListV, ih]

/-- Updating staticInFor does not change the static-root qualification. -/
theorem qualifiesRoot_setInFor (fl : MarkFlags) (b : Option Bool) (children : List ASTNode) :
    qualifiesRoot { fl with staticInFor := b } children = qualifiesRoot fl children := by
  simp [qualifiesRoot]

/-- The qualification test spelled out: static is truthy, at least one
child, and the children are not a single plain-text node. -/
theorem qualifiesRoot_iff (fl : MarkFlags) (children : List ASTNode) :
    qualifiesRoot fl children = true ↔
      (truthy fl.static = true ∧ children ≠ [] ∧
        ¬ ∃ c, children = [c] ∧ isPlainTextNode c = true) := by
  match children with
  | [] => simp [qualifiesRoot]
  | [c] =>
    by_cases hc : isPlainTextNode c = true <;>
      simp [qualifiesRoot, hc, and_assoc]
  | c :: d :: rest =>
    have hne : ¬ ∃ x, c :: d :: rest = [x] ∧ isPlainTextNode x = true := by
      rintro ⟨x, hx, _⟩
      simp at hx
    simp [qualifiesRoot, hne]

/-- Claim C4: markStatic on an element whose tag is neither platform-reserved
nor slot and that has no inline-template attribute does not recurse: the
children and conditional blocks are returned untouched and the static flag is
exactly the isStatic result of the node itself. -/
theorem C4_component_no_recursion (resv staticKey : String → Bool)
    (anc : List (String × Bool)) (tag : String)
    (it pre hb hif hfor onc : Bool) (keys : List String) (fl : MarkFlags)
    (children ifBlocks : List ASTNode)
    (h1 : resv tag = false) (h2 : tag ≠ "slot") (h3 : it = false) :
    markStaticV resv staticKey anc
        (.element tag it pre hb hif hfor onc keys fl children ifBlocks)
      = .element tag it pre hb hif hfor onc keys
          { fl with static := some (isStaticV resv staticKey anc
              (.element tag it pre hb hif hfor onc keys fl children ifBlocks)) }
          children ifBlocks := by
  rw [markStaticV]
  rw [if_pos]
  exact ⟨by simp [h1], h2, by simp [h3]⟩

/-- Evaluation of markStaticRoots on an element, split on the
qualification test. -/
theorem markStaticRootsV_element (isInFor : Bool) (tag : String)
    (it pre hb hif hfor onc : Bool) (keys : List String) (fl : MarkFlags)
    (children ifBlocks : List ASTNode) :
    markStaticRootsV isInFor
        (.element tag it pre hb hif hfor onc keys fl children ifBlocks)
      = if qualifiesRoot fl children then
          .element tag it pre hb hif hfor onc keys
            { updInFor isInFor onc fl with staticRoot := some true } children ifBlocks
        else
          .element tag it pre hb hif hfor onc keys
            { updInFor isInFor onc fl with staticRoot := some false }
            (children.map (markStaticRootsV (isInFor || hfor)))
            (ifBlocks.map (markStaticRootsV isInFor)) := by
  have hfl1 : qualifiesRoot (updInFor isInFor onc fl) children = qualifiesRoot fl children := by
    by_cases h : (truthy fl.static || onc) = true
    · simp [updInFor, h, qualifiesRoot_setInFor]
    · simp [updInFor, h]
  rw [markStaticRootsV]
  rw [show (if truthy fl.static || onc then { fl with staticInFor := some isInFor } else fl)
        = updInFor isInFor onc fl from rfl]
  rw [hfl1, markStaticRootsListV_eq_map, markStaticRootsListV_eq_map]

/-- Witness for C4: a custom component with a dynamic (non-static) child is

left unrecursed and keeps its own isStatic value. -/
theorem C4_component_no_recursion_witness :
    markStaticV (fun t => t == "div") (fun _ => true) []
        (.element "my-comp" false false false false false false []
          MarkFlags.fresh [.exprText MarkFlags.fresh] [])
      = .element "my-comp" false false false false false false []
          { MarkFlags.fresh with static := some (isStaticV (fun t => t == "div")
              (fun _ => true) []
              (.element "my-comp" false false false false false false []
                MarkFlags.fresh [.exprText MarkFlags.fresh] [])) }
          [.exprText MarkFlags.fresh] [] :=
  C4_component_no_recursion (fun t => t == "div") (fun _ => true) [] "my-comp"
    false false false false false false [] MarkFlags.fresh
    [.exprText MarkFlags.fresh] [] (by decide) (by decide) rfl

/-- Claim C5: markStaticRoots marks an element staticRoot true iff it is
static, has at least one child, and its children are not exactly one
plain-text node; a qualifying node stops the recursion (children and
conditional blocks untouched), and a non-qualifying element gets
staticRoot false. -/
theorem C5_static_root_iff (isInFor : Bool) (tag : String)
    (it pre hb hif hfor onc : Bool) (keys : List String) (fl : MarkFlags)
    (children ifBlocks : List ASTNode) :
    (topStaticRoot (markStaticRootsV isInFor
          (.element tag it pre hb hif hfor onc keys fl children ifBlocks)) = some true
        ↔ (truthy fl.static = true ∧ children ≠ [] ∧
            ¬ ∃ c, children = [c] ∧ isPlainTextNode c = true)) ∧
    ((truthy fl.static = true ∧ children ≠ [] ∧
        ¬ ∃ c, children = [c] ∧ isPlainTextNode c = true) →
      childrenOf (markStaticRootsV isInFor
          (.element tag it pre hb hif hfor onc keys fl children ifBlocks)) = children ∧
      ifBlocksOf (markStaticRootsV isInFor
          (.element tag it pre hb hif hfor onc keys fl children ifBlocks)) = ifBlocks) ∧
    (¬ (truthy fl.static = true ∧ children ≠ [] ∧
          ¬ ∃ c, children = [c] ∧ isPlainTextNode c = true) →
      topStaticRoot (markStaticRootsV isInFor
          (.element tag it pre hb hif hfor onc keys fl children ifBlocks)) = some false) := by
  rw [markStaticRootsV_element]
  by_cases hq : qualifiesRoot fl children = true
  · have hQ := (qualifiesRoot_iff fl children).mp hq
    simp [hq, topStaticRoot, topFlags, childrenOf, ifBlocksOf, hQ]
  · have hQ : ¬ (truthy fl.static = true ∧ children ≠ [] ∧
        ¬ ∃ c, children = [c] ∧ isPlainTextNode c = true) :=
      fun h => hq ((qualifiesRoot_iff fl children).mpr h)
    rw [if_neg hq]
    exact ⟨iff_of_false (by simp [topStaticRoot, topFlags]) hQ,
      fun h => absurd h hQ, fun _ => rfl⟩

/-- Witness for C5: a static div with two plain-text children is marked a
static root with its children untouched. -/
theorem C5_static_root_iff_witness :
    topStaticRoot (markStaticRootsV false
        (.element "div" false false false false false false []
          ⟨some true, none, none⟩
          [.plainText ⟨some true, none, none⟩, .plainText ⟨some true, none, none⟩] []))
      = some true ∧
    childrenOf (markStaticRootsV false
        (.element "div" false false false false false false []
          ⟨some true, none, none⟩
          [.plainText ⟨some true, none, none⟩, .plainText ⟨some true, none, none⟩] []))
      = [.plainText ⟨some true, none, none⟩, .plainText ⟨some true, none, none⟩] := by
  have hQ : truthy (⟨some true, none, none⟩ : MarkFlags).static = true ∧
      ([.plainText ⟨some true, none, none⟩, .plainText ⟨some true, none, none⟩] :
        List ASTNode) ≠ [] ∧
      ¬ ∃ c, ([.plainText ⟨some true, none, none⟩,
          .plainText ⟨some true, none, none⟩] : List ASTNode) = [c] ∧
        isPlainTextNode c = true := by
    refine ⟨rfl, by simp, ?_⟩
    rintro ⟨c, hc, _⟩
    simp at hc
  exact ⟨(C5_static_root_iff false "div" false false false false false false []
      ⟨some true, none, none⟩
      [.plainText ⟨some true, none, none⟩, .plainText ⟨some true, none, none⟩] []).1.mpr hQ,
    ((C5_static_root_iff false "div" false false false false false false []
      ⟨some true, none, none⟩
      [.plainText ⟨some true, none, none⟩, .plainText ⟨some true, none, none⟩] []).2.1 hQ).1⟩

/-- Claim C9, as stated, is false: on a non-qualifying v-for element,
markStaticRoots visits the ordinary child with isInFor OR the for marker
(true here), but visits the non-first conditional block with the incoming
isInFor unchanged (false here), as the recorded staticInFor flags of the two
v-once nodes show. -/
theorem C9_counterexample :
    ((childrenOf (markStaticRootsV false c9Node)).map topStaticInFor = [some true]) ∧
    ((ifBlocksOf (markStaticRootsV false c9Node)).map topStaticInFor = [some false]) := by
  constructor <;> rfl

/-- Claim C9 (amended): on a non-qualifying element, markStaticRoots visits
the ordinary children with isInFor OR the for marker of the node, but visits
the non-first conditional blocks with the incoming isInFor unchanged. -/
theorem C9_recursion_flags (isInFor : Bool) (tag : String)
    (it pre hb hif hfor onc : Bool) (keys : List String) (fl : MarkFlags)
    (children ifBlocks : List ASTNode)
    (h : qualifiesRoot fl children = false) :
    childrenOf (markStaticRootsV isInFor
        (.element tag it pre hb hif hfor onc keys fl children ifBlocks))
      = children.map (markStaticRootsV (isInFor || hfor)) ∧
    ifBlocksOf (markStaticRootsV isInFor
        (.element tag it pre hb hif hfor onc keys fl children ifBlocks))
      = ifBlocks.map (markStaticRootsV isInFor) := by
  rw [markStaticRootsV_element]
  simp [h, childrenOf, ifBlocksOf]

/-- Witness for C9 on the concrete v-for node. -/
theorem C9_recursion_flags_witness :
    childrenOf (markStaticRootsV false c9Node)
      = [c9Child].map (markStaticRootsV true) ∧
    ifBlocksOf (markStaticRootsV false c9Node)
      = [c9Block].map (markStaticRootsV false) :=
  C9_recursion_flags false "div" false false false false true false []
    ⟨some false, none, none⟩ [c9Child] [c9Block] rfl

theorem quad_notifyLog (fuel : Nat) :
    (∀ s v a o v2 s2, observeV fuel s v a = some (o, v2, s2) → s2.notifyLog = s.notifyLog) ∧
    (∀ s es es2 s2, observeElemsV fuel s es = some (es2, s2) → s2.notifyLog = s.notifyLog) ∧
    (∀ s ks fs fs2 s2, walkFieldsV fuel s ks fs = some (fs2, s2) → s2.notifyLog = s.notifyLog) ∧
    (∀ s fs k va sh fs2 s2, defineReactiveFieldsV fuel s fs k va sh = some (fs2, s2) →
      s2.notifyLog = s.notifyLog) := by
  induction fuel with
  | zero =>
    refine ⟨?_, ?_, ?_, ?_⟩
    · intro s v a o v2 s2 h; simp [observeV] at h
    · intro s es es2 s2 h; simp [observeElemsV] at h
    · intro s ks fs fs2 s2 h; simp [walkFieldsV] at h
    · intro s fs k va sh fs2 s2 h; simp [defineReactiveFieldsV] at h
  | succ n ih =>
    obtain ⟨ihO, ihE, ihW, ihD⟩ := ih
    refine ⟨?_, ?_, ?_, ?_⟩
    · intro s v a o v2 s2 h
      simp only [observeV] at h
      split at h
      · cases h; rfl
      · split at h
        · exact absurd h (by simp)
        · rename_i v1 s1 heq
          cases h
          split at heq
          · simp at heq
          · split at heq
            · split at heq
              · split at heq
                · simp at heq
                · simp at heq
              · split at heq
                · simp at heq
                · simp at heq
              · simp at heq
            · cases heq; rfl
        · rename_i r v1 s1 heq
          have hs1 : s1.notifyLog = s.notifyLog := by
            split at heq
            · cases heq; rfl
            · split at heq
              · split at heq
                · split at heq
                  · simp at heq
                  · rename_i helems
                    cases heq
                    exact (ihE _ _ _ _ helems).trans rfl
                · split at heq
                  · simp at heq
                  · rename_i hwalk
                    cases heq
                    exact (ihW _ _ _ _ _ hwalk).trans rfl
                · cases heq; rfl
              · simp at heq
          split at h
          · cases h; exact hs1
          · cases h; exact hs1
    · intro s es es2 s2 h
      match es with
      | [] => simp only [observeElemsV] at h; cases h; rfl
      | e :: rest =>
        simp only [observeElemsV] at h
        split at h
        · exact absurd h (by simp)
        · rename_i hob
          split at h
          · exact absurd h (by simp)
          · rename_i hrest
            cases h
            rw [ihE _ _ _ _ hrest, ihO _ _ _ _ _ _ hob]
    · intro s ks fs fs2 s2 h
      match ks with
      | [] => simp only [walkFieldsV] at h; cases h; rfl
      | k :: kt =>
        simp only [walkFieldsV] at h
        split at h
        · exact absurd h (by simp)
        · rename_i hdef
          rw [ihW _ _ _ _ _ h, ihD _ _ _ _ _ _ _ hdef]
    · intro s fs k va sh fs2 s2 h
      simp only [defineReactiveFieldsV] at h
      split at h
      · split at h
        · cases h; rfl
        · split at h
          · exact absurd h (by simp)
          · rename_i hobs
            cases h
            split at hobs
            · cases hobs; rfl
            · exact (ihO _ _ _ _ _ _ hobs).trans rfl
      · split at h
        · exact absurd h (by simp)
        · rename_i hobs
          cases h
          split at hobs
          · cases hobs; rfl
          · exact (ihO _ _ _ _ _ _ hobs).trans rfl

theorem jsTripleEq_setTopOb (r : ObRec) (x y : JSVal) :
    jsTripleEq (setTopOb r x) y = jsTripleEq x y := by
  cases x <;> cases y <;> simp [setTopOb, jsTripleEq]

theorem jsTripleEq_refl_obj (v : JSVal) (h : isObjectV v = true) :
    jsTripleEq v v = true := by
  cases v <;> simp_all [isObjectV, jsTripleEq]

theorem getTopOb_some_isObject (v : JSVal) (r : ObRec) (h : getTopOb v = some r) :
    isObjectV v = true := by
  cases v <;> simp_all [getTopOb, isObjectV]

theorem observeV_val_eq (fuel : Nat) (s : RState) (v : JSVal) (a : Bool)
    (o : Option ObRec) (v2 : JSVal) (s2 : RState)
    (h : observeV fuel s v a = some (o, v2, s2)) :
    v2 = v ∨ jsTripleEq v2 v = true := by
  match fuel with
  | 0 => simp [observeV] at h
  | n + 1 =>
    simp only [observeV] at h
    split at h
    · cases h; exact Or.inl rfl
    · rename_i hobj
      have hobj2 : isObjectV v = true := by
        rcases not_or.mp hobj with ⟨h1, _⟩
        simpa using h1
      split at h
      · exact absurd h (by simp)
      · rename_i v1 s1 heq
        cases h
        split at heq
        · simp at heq
        · split at heq
          · split at heq
            · split at heq
              · simp at heq
              · simp at heq
            · split at heq
              · simp at heq
              · simp at heq
            · simp at heq
          · cases heq; exact Or.inl rfl
      · rename_i r v1 s1 heq
        have hv1 : v1 = v ∨ jsTripleEq v1 v = true := by
          split at heq
          · cases heq; exact Or.inl rfl
          · split at heq
            · split at heq
              · rename_i oid ob ext aug elems heqS
                split at heq
                · simp at heq
                · cases heq
                  cases v <;> simp [setTopOb] at heqS
                  right
                  obtain ⟨h1, _⟩ := heqS
                  simp [jsTripleEq, h1]
              · rename_i oid ob ext vue fields proto heqS
                split at heq
                · simp at heq
                · cases heq
                  cases v <;> simp [setTopOb] at heqS
                  right
                  obtain ⟨h1, _⟩ := heqS
                  simp [jsTripleEq, h1]
              · cases heq
                right
                rw [jsTripleEq_setTopOb]
                exact jsTripleEq_refl_obj v hobj2
            · simp at heq
        split at h
        · cases h
          right
          rw [jsTripleEq_setTopOb]
          rcases hv1 with h1 | h1
          · rw [h1]; exact jsTripleEq_refl_obj v hobj2
          · exact h1
        · cases h; exact hv1

theorem observeV_top (fuel : Nat) (s : RState) (v : JSVal) (r : ObRec)
    (v2 : JSVal) (s2 : RState)
    (h : observeV fuel s v false = some (some r, v2, s2)) :
    getTopOb v2 = some r ∧ isVNodeV v2 = false := by
  match fuel with
  | 0 => simp [observeV] at h
  | n + 1 =>
    simp only [observeV] at h
    split at h
    · exact absurd h (by simp)
    · rename_i hobj
      have hvn : isVNodeV v = false := by
        rcases not_or.mp hobj with ⟨_, h2⟩
        simpa using h2
      split at h
      · exact absurd h (by simp)
      · exact absurd h (by simp)
      · rename_i r1 v1 s1 heq
        simp only [if_neg (by simp : ¬ (false = true))] at h
        cases h
        split at heq
        · rename_i r0 heqG
          cases heq
          exact ⟨heqG, hvn⟩
        · split at heq
          · rename_i hguard
            split at heq
            · rename_i oid ob ext aug elems heqS
              split at heq
              · simp at heq
              · cases heq
                cases v <;> simp [setTopOb] at heqS
                obtain ⟨_, hob, _⟩ := heqS
                exact ⟨by simp [getTopOb, hob.symm], by simp [isVNodeV]⟩
            · rename_i oid ob ext vue fields proto heqS
              split at heq
              · simp at heq
              · cases heq
                cases v <;> simp [setTopOb] at heqS
                obtain ⟨_, hob, _⟩ := heqS
                exact ⟨by simp [getTopOb, hob.symm], by simp [isVNodeV]⟩
            · rename_i vX hne1 hne2
              cases heq
              rcases hguard.2.2.1 with harr | hplain
              · cases v <;> simp [isArrayV] at harr
                exact absurd rfl (hne1 _ _ _ _ _)
              · cases v <;> simp [isPlainObjectV] at hplain
                exact absurd rfl (hne2 _ _ _ _ _ _)
          · simp at heq

/-- Claim C8: observe is idempotent. -/
theorem C8_observe_idempotent :
    (∀ fuel s v r, getTopOb v = some r → isVNodeV v = false →
      observeV (fuel + 1) s v false = some (some r, v, s)) ∧
    (∀ fuel g s v r v2 s2, observeV fuel s v false = some (some r, v2, s2) →
      observeV (g + 1) s2 v2 false = some (some r, v2, s2)) := by
  have part1 : ∀ fuel s v r, getTopOb v = some r → isVNodeV v = false →
      observeV (fuel + 1) s v false = some (some r, v, s) := by
    intro fuel s v r htop hvn
    have hobj := getTopOb_some_isObject v r htop
    simp [observeV, htop, hobj, hvn]
  refine ⟨part1, ?_⟩
  intro fuel g s v r v2 s2 h
  obtain ⟨htop, hvn⟩ := observeV_top fuel s v r v2 s2 h
  exact part1 g s2 v2 r htop hvn

/-- Witness for C8. -/
theorem C8_observe_idempotent_witness :
    observeV 1 c8State c8Val false = some (some ⟨0, 0, 0⟩, c8Val, c8State) :=
  C8_observe_idempotent.1 0 c8State c8Val ⟨0, 0, 0⟩ rfl rfl

/-- Claim C10: defineReactive on a non-configurable property is a no-op. -/
theorem C10_defineReactive_noop (fuel : Nat) (s : RState) (oid : Nat)
    (ob : Option ObRec) (ext vue : Bool) (fields : List (String × PropDesc))
    (proto : List String) (key : String) (valArg : Option JSVal) (sh : Bool)
    (d : PropDesc) (hd : fields.lookup key = some d)
    (hc : descConfigurable d = false) :
    defineReactiveV (fuel + 1) s (.plainObj oid ob ext vue fields proto) key valArg sh
      = some (.plainObj oid ob ext vue fields proto,
          { s with nextDepId := s.nextDepId + 1 }) := by
  simp [defineReactiveV, defineReactiveFieldsV, hd, hc]

/-- Witness for C10 on a frozen property. -/
theorem C10_defineReactive_noop_witness :
    defineReactiveV 1 c10State
        (.plainObj 0 none true false [("k", .data .undef false)] []) "k" none false
      = some (.plainObj 0 none true false [("k", .data .undef false)] [],
          { c10State with nextDepId := 1 }) :=
  C10_defineReactive_noop 0 c10State 0 none true false
    [("k", .data .undef false)] [] "k" none false (.data .undef false) rfl rfl

theorem C2_setter_semantics (fuel : Nat) (s : RState) (depId : Nat)
    (hG hS : Bool) (gv val : JSVal) (sh : Bool) (newVal : JSVal) :
    ((jsTripleEq newVal (if hG then gv else val) = true ∨
        (jsTripleEq newVal newVal = false ∧
          jsTripleEq (if hG then gv else val) (if hG then gv else val) = false)) →
      reactiveSetterV fuel s depId hG hS gv val sh newVal = some (val, s, false)) ∧
    (¬ (jsTripleEq newVal (if hG then gv else val) = true ∨
        (jsTripleEq newVal newVal = false ∧
          jsTripleEq (if hG then gv else val) (if hG then gv else val) = false)) →
      hG = true → hS = false →
      reactiveSetterV fuel s depId hG hS gv val sh newVal = some (val, s, false)) ∧
    (¬ (jsTripleEq newVal (if hG then gv else val) = true ∨
        (jsTripleEq newVal newVal = false ∧
          jsTripleEq (if hG then gv else val) (if hG then gv else val) = false)) →
      (hG = true → hS = true) →
      ∀ val2 s2 nt,
        reactiveSetterV fuel s depId hG hS gv val sh newVal = some (val2, s2, nt) →
        nt = true ∧ s2.notifyLog = s.notifyLog ++ [depId] ∧
        (hS = false → (val2 = newVal ∨ jsTripleEq val2 newVal = true))) := by
  refine ⟨?_, ?_, ?_⟩
  · intro hskip
    have hcond : (jsTripleEq newVal (if hG then gv else val)
        || (!(jsTripleEq newVal newVal)
            && !(jsTripleEq (if hG then gv else val) (if hG then gv else val)))) = true := by
      rcases hskip with h | ⟨h1, h2⟩
      · simp [h]
      · simp [h1, h2]
    simp [reactiveSetterV, hcond]
  · intro hskip hg hs
    have hcond : (jsTripleEq newVal (if hG then gv else val)
        || (!(jsTripleEq newVal newVal)
            && !(jsTripleEq (if hG then gv else val) (if hG then gv else val)))) = false := by
      rw [Bool.eq_false_iff]
      intro hb
      rcases Bool.or_eq_true _ _ |>.mp hb with h | h
      · exact hskip (Or.inl h)
      · obtain ⟨h1, h2⟩ := Bool.and_eq_true _ _ |>.mp h
        exact hskip (Or.inr ⟨by simpa using h1, by simpa using h2⟩)
    subst hg hs
    simp [reactiveSetterV, hcond]
  · intro hskip hgs val2 s2 nt h
    have hcond : (jsTripleEq newVal (if hG then gv else val)
        || (!(jsTripleEq newVal newVal)
            && !(jsTripleEq (if hG then gv else val) (if hG then gv else val)))) = false := by
      rw [Bool.eq_false_iff]
      intro hb
      rcases Bool.or_eq_true _ _ |>.mp hb with h1 | h1
      · exact hskip (Or.inl h1)
      · obtain ⟨h1, h2⟩ := Bool.and_eq_true _ _ |>.mp h1
        exact hskip (Or.inr ⟨by simpa using h1, by simpa using h2⟩)
    have hgs2 : (hG && !hS) = false := by
      cases hG <;> cases hS <;> simp_all
    simp only [reactiveSetterV, hcond, hgs2, Bool.false_eq_true, if_false] at h
    split at h
    · exact absurd h (by simp)
    · rename_i x newVal2 s1 hobs
      cases h
      refine ⟨rfl, ?_, ?_⟩
      · have hlog : s1.notifyLog = s.notifyLog := by
          split at hobs
          · cases hobs; rfl
          · exact (quad_notifyLog fuel).1 _ _ _ _ _ _ hobs
        simp [notifyDep, hlog]
      · intro hs
        subst hs
        simp only [Bool.false_eq_true, if_false]
        split at hobs
        · cases hobs; exact Or.inl rfl
        · exact observeV_val_eq fuel s newVal false _ _ _ hobs

@[simp] theorem isUndefV_plainObj (oid ob ext vue fs pr) :
    isUndefV (.plainObj oid ob ext vue fs pr) = false := rfl

@[simp] theorem isPrimitiveV_plainObj (oid ob ext vue fs pr) :
    isPrimitiveV (.plainObj oid ob ext vue fs pr) = false := rfl

@[simp] theorem isArrayV_plainObj (oid ob ext vue fs pr) :
    isArrayV (.plainObj oid ob ext vue fs pr) = false := rfl

@[simp] theorem isObjectV_plainObj (oid ob ext vue fs pr) :
    isObjectV (.plainObj oid ob ext vue fs pr) = true := rfl

@[simp] theorem isVueV_plainObj (oid ob ext fs pr) (vue : Bool) :
    isVueV (.plainObj oid ob ext vue fs pr) = vue := rfl

@[simp] theorem getTopOb_plainObj (oid ob ext vue fs pr) :
    getTopOb (.plainObj oid ob ext vue fs pr) = ob := rfl

@[simp] theorem keyToString_str (k : String) : keyToString (.str k) = k := rfl

theorem lookup_setField (fs : List (String × PropDesc)) (k : String) (d : PropDesc) :
    (setField fs k d).lookup k = some d := by
  induction fs with
  | nil => simp [setField, List.lookup]
  | cons p rest ih =>
    obtain ⟨k0, d0⟩ := p
    by_cases h : k0 = k
    · subst h
      simp [setField, List.lookup]
    · have hbe : (k == k0) = false := beq_eq_false_iff_ne.mpr (Ne.symm h)
      have hbe2 : (k0 == k) = false := beq_eq_false_iff_ne.mpr h
      simp [setField, List.lookup, hbe, hbe2, ih]

theorem setV_plain_branch (fuel : Nat) (s : RState) (oid : Nat) (ob : Option ObRec)
    (ext vue : Bool) (fields : List (String × PropDesc)) (proto : List String)
    (k : String) (v : JSVal)
    (h1 : keyInV k (.plainObj oid ob ext vue fields proto) = true)
    (h2 : objectProtoKeys.contains k = false) :
    setV fuel s (.plainObj oid ob ext vue fields proto) (.str k) v
      = (match plainWriteV fuel s (.plainObj oid ob ext vue fields proto) k v with
          | none => .fuelOut
          | some (t2, s2) => .ok (v, t2, s2)) := by
  simp only [setV, keyToString_str]
  rw [if_neg (by simp)]
  rw [if_neg (by simp)]
  rw [if_pos ⟨h1, by rw [h2]; simp⟩]
  simp

theorem setV_define_branch (fuel : Nat) (s : RState) (oid : Nat) (r : ObRec)
    (ext : Bool) (fields : List (String × PropDesc)) (proto : List String)
    (k : String) (v : JSVal)
    (hvm : r.vmCount = 0)
    (htest : ¬ (keyInV k (.plainObj oid (some r) ext false fields proto) = true ∧
      ¬ objectProtoKeys.contains k = true)) :
    setV fuel s (.plainObj oid (some r) ext false fields proto) (.str k) v
      = (match defineReactiveV fuel s (.plainObj oid (some r) ext false fields proto)
            k (some v) false with
          | none => .fuelOut
          | some (t2, s2) => .ok (v, t2, notifyDep r.depId s2)) := by
  simp only [setV, keyToString_str]
  rw [if_neg (by simp)]
  rw [if_neg (by simp)]
  rw [if_neg htest]
  rw [if_neg (by simp [hvm])]
  simp only [getTopOb_plainObj]
  simp

theorem plainWrite_reactive_notifies (g : Nat) (s2 : RState) (oid : Nat)
    (ob : Option ObRec) (ext vue : Bool) (fields : List (String × PropDesc))
    (proto : List String) (k : String) (d : Nat) (val2 v2 : JSVal)
    (t3 : JSVal) (s3 : RState)
    (hlk : fields.lookup k = some (.reactive d false false .undef val2 false))
    (hne : jsTripleEq v2 val2 = false) (hself : jsTripleEq v2 v2 = true)
    (hw : plainWriteV g s2 (.plainObj oid ob ext vue fields proto) k v2
      = some (t3, s3)) :
    s3.notifyLog = s2.notifyLog ++ [d] := by
  have hrs : reactiveSetterV g s2 d false false .undef val2 false v2
      = (match observeV g s2 v2 false with
          | none => none
          | some (x, nv2, s1) => some (nv2, notifyDep d s1, true)) := by
    simp [reactiveSetterV, hne, hself]
  simp only [plainWriteV, hlk, hrs] at hw
  split at hw
  · exact absurd hw (by simp)
  · rename_i a b c hobs
    cases hw
    split at hobs
    · exact absurd hobs (by simp)
    · rename_i o nv2 s1 hobs2
      cases hobs
      have hlog := (quad_notifyLog g).1 _ _ _ _ _ _ hobs2
      simp [notifyDep, hlog]

/-- Claim C6: set on an observed non-root record lacking the key defines it
reactive and notifies the whole-object Dep; on a root record it is rejected
with a development diagnostic and no change. -/
theorem C6_set_new_key :
    (∀ fuel s oid (r : ObRec) ext fields proto k (v rv t' : JSVal) (s' : RState),
      r.vmCount = 0 →
      fields.lookup k = none →
      proto.contains k = false →
      setV fuel s (.plainObj oid (some r) ext false fields proto) (.str k) v
        = .ok (rv, t', s') →
      s'.notifyLog = s.notifyLog ++ [r.depId] ∧
      ∃ d val2 fields2,
        t' = .plainObj oid (some r) ext false fields2 proto ∧
        fields2.lookup k = some (.reactive d false false .undef val2 false) ∧
        (val2 = v ∨ jsTripleEq val2 v = true) ∧
        ∀ g s2 (v2 t3 : JSVal) (s3 : RState),
          jsTripleEq v2 val2 = false → jsTripleEq v2 v2 = true →
          plainWriteV g s2 t' k v2 = some (t3, s3) →
          s3.notifyLog = s2.notifyLog ++ [d]) ∧
    (∀ fuel s oid i dp m ext fields proto k (v : JSVal),
      fields.lookup k = none →
      proto.contains k = false →
      setV fuel s (.plainObj oid (some ⟨i, dp, m + 1⟩) ext false fields proto) (.str k) v
        = .ok (v, .plainObj oid (some ⟨i, dp, m + 1⟩) ext false fields proto,
            if ¬ s.production = true then warnDev s else s)) := by
  constructor
  · intro fuel s oid r ext fields proto k v rv t' s' hvm hown hproto hset
    have htest : ¬ (keyInV k (.plainObj oid (some r) ext false fields proto) = true ∧
        ¬ objectProtoKeys.contains k = true) := by
      rintro ⟨hin, hnc⟩
      rw [show keyInV k (.plainObj oid (some r) ext false fields proto)
          = ((fields.lookup k).isSome || proto.contains k
              || objectProtoKeys.contains k) from rfl] at hin
      rw [hown, hproto] at hin
      simp at hin
      exact hnc (by simp [hin])
    rw [setV_define_branch fuel s oid r ext fields proto k v hvm htest] at hset
    match fuel with
    | 0 => simp [defineReactiveV, defineReactiveFieldsV] at hset
    | n + 1 =>
      simp only [defineReactiveV, defineReactiveFieldsV, hown] at hset
      cases hobs : observeV n { s with nextDepId := s.nextDepId + 1 } v false with
      | none =>
        simp only [hobs] at hset
        exact JSOutcome.noConfusion hset
      | some trip =>
        obtain ⟨x, val2, s2⟩ := trip
        simp only [hobs] at hset
        cases hset
        constructor
        · have hlog := (quad_notifyLog n).1 _ _ _ _ _ _ hobs
          simp [notifyDep, hlog]
        · refine ⟨s.nextDepId, val2, setField fields k
            (.reactive s.nextDepId false false .undef val2 false), rfl,
            lookup_setField _ _ _, observeV_val_eq n _ v false _ _ _ hobs, ?_⟩
          intro g s2' v2 t3 s3 hne hself hw
          exact plainWrite_reactive_notifies g s2' oid (some r) ext false _ proto k
            s.nextDepId val2 v2 t3 s3 (lookup_setField _ _ _) hne hself hw
  · intro fuel s oid i dp m ext fields proto k v hown hproto
    have htest : ¬ (keyInV k (.plainObj oid (some ⟨i, dp, m + 1⟩) ext false fields proto) = true ∧
        ¬ objectProtoKeys.contains k = true) := by
      rintro ⟨hin, hnc⟩
      rw [show keyInV k (.plainObj oid (some ⟨i, dp, m + 1⟩) ext false fields proto)
          = ((fields.lookup k).isSome || proto.contains k
              || objectProtoKeys.contains k) from rfl] at hin
      rw [hown, hproto] at hin
      simp at hin
      exact hnc (by simp [hin])
    simp only [setV, keyToString_str]
    rw [if_neg (by simp)]
    rw [if_neg (by simp)]
    rw [if_neg htest]
    rw [if_pos (by simp)]
    simp

/-- Claim C7 (amended): branch selection of set follows the in-operator
test, not an own-property test. -/
theorem C7_existing_key_branch :
    (∀ fuel s oid (r : ObRec) ext fields proto k (v : JSVal),
      keyInV k (.plainObj oid (some r) ext false fields proto) = true →
      objectProtoKeys.contains k = false →
      setV fuel s (.plainObj oid (some r) ext false fields proto) (.str k) v
        = (match plainWriteV fuel s (.plainObj oid (some r) ext false fields proto) k v with
            | none => .fuelOut
            | some (t2, s2) => .ok (v, t2, s2))) ∧
    (∀ fuel s oid (r : ObRec) ext fields proto k (v v0 : JSVal) (c : Bool),
      fields.lookup k = some (.data v0 c) →
      objectProtoKeys.contains k = false →
      setV fuel s (.plainObj oid (some r) ext false fields proto) (.str k) v
        = .ok (v, .plainObj oid (some r) ext false
            (setField fields k (.data v c)) proto, s)) ∧
    (∀ fuel s oid (r : ObRec) ext fields proto k (v : JSVal),
      r.vmCount = 0 →
      ¬ (keyInV k (.plainObj oid (some r) ext false fields proto) = true ∧
        objectProtoKeys.contains k = false) →
      setV fuel s (.plainObj oid (some r) ext false fields proto) (.str k) v
        = (match defineReactiveV fuel s (.plainObj oid (some r) ext false fields proto)
              k (some v) false with
            | none => .fuelOut
            | some (t2, s2) => .ok (v, t2, notifyDep r.depId s2))) := by
  refine ⟨?_, ?_, ?_⟩
  · intro fuel s oid r ext fields proto k v h1 h2
    exact setV_plain_branch fuel s oid (some r) ext false fields proto k v h1 h2
  · intro fuel s oid r ext fields proto k v v0 c hlk h2
    have h1 : keyInV k (.plainObj oid (some r) ext false fields proto) = true := by
      rw [show keyInV k (.plainObj oid (some r) ext false fields proto)
          = ((fields.lookup k).isSome || proto.contains k
              || objectProtoKeys.contains k) from rfl]
      simp [hlk]
    rw [setV_plain_branch fuel s oid (some r) ext false fields proto k v h1 h2]
    simp only [plainWriteV, hlk]
  · intro fuel s oid r ext fields proto k v hvm htest
    refine setV_define_branch fuel s oid r ext fields proto k v hvm ?_
    rintro ⟨ha, hb⟩
    exact htest ⟨ha, by simpa using hb⟩

/-- Claim C2, as stated, is false: on a reactive property wrapping a getter
(current value 0) without a setter, writing 1 — neither strictly equal to
the current value nor a NaN-to-NaN write — stores nothing and triggers no
notification, because the setter returns early for getter-without-setter
properties. -/
theorem C2_counterexample :
    jsTripleEq (.num 1) (.num 0) = false ∧
    jsTripleEq (JSVal.num 1) (JSVal.num 1) = true ∧
    reactiveSetterV 1 c2State 0 true false (.num 0) .undef false (.num 1)
      = some (.undef, c2State, false) :=
  ⟨rfl, rfl, rfl⟩

/-- Witness for C2: an identical write is skipped without notification, and
a changed write on a plain data property notifies its Dep. -/
theorem C2_setter_semantics_witness :
    reactiveSetterV 1 c2State 4 false false .undef (.num 3) false (.num 3)
      = some (.num 3, c2State, false) ∧
    (⟨1, 1, [4], 0, true, false, true⟩ : RState).notifyLog = c2State.notifyLog ++ [4] :=
  ⟨(C2_setter_semantics 1 c2State 4 false false .undef (.num 3) false (.num 3)).1
      (Or.inl (by decide)),
   ((C2_setter_semantics 1 c2State 4 false false .undef (.num 3) false (.num 5)).2.2
      (by decide) (by decide) (.num 5) ⟨1, 1, [4], 0, true, false, true⟩ true rfl).2.1⟩

/-- Witness for C6: adding key b to an observed non-root record notifies the
whole-object Dep (dep id 0), and the same call on a root record leaves the
record unchanged with one development warning. -/
theorem C6_set_new_key_witness :
    (⟨2, 1, [0], 0, true, false, true⟩ : RState).notifyLog
      = c6State.notifyLog ++ [(⟨0, 0, 0⟩ : ObRec).depId] ∧
    setV 3 (⟨1, 1, [], 0, true, false, false⟩ : RState)
        (.plainObj 0 (some ⟨0, 0, 1⟩) true false [] []) (.str "b") (.num 7)
      = .ok (.num 7, .plainObj 0 (some ⟨0, 0, 1⟩) true false [] [],
          ⟨1, 1, [], 1, true, false, false⟩) :=
  ⟨(C6_set_new_key.1 3 c6State 0 ⟨0, 0, 0⟩ true [("a", .data (.num 0) true)] [] "b"
      (.num 7) (.num 7)
      (.plainObj 0 (some ⟨0, 0, 0⟩) true false
        [("a", .data (.num 0) true),
         ("b", .reactive 1 false false .undef (.num 7) false)] [])
      ⟨2, 1, [0], 0, true, false, true⟩ rfl rfl rfl rfl).1,
   (C6_set_new_key.2 3 ⟨1, 1, [], 0, true, false, false⟩ 0 0 0 0 true [] [] "b"
      (.num 7) rfl rfl).trans rfl⟩

/-- Claim C7, as stated, is false: toString is an own, non-inherited data
property of the target, yet set does not take the plain-assignment branch —
because toString also exists on Object.prototype, the in-operator test
fails, the property is redefined through defineReactive, and the
whole-object Dep (dep id 0) is notified. -/
theorem C7_counterexample :
    ((([("toString", PropDesc.data (.num 0) true)]
        : List (String × PropDesc)).lookup "toString").isSome = true) ∧
    setV 3 c7State (.plainObj 0 (some ⟨0, 0, 0⟩) true false
        [("toString", .data (.num 0) true)] []) (.str "toString") (.num 1)
      = .ok (.num 1,
          .plainObj 0 (some ⟨0, 0, 0⟩) true false
            [("toString", .reactive 1 false false (.num 0) (.num 1) false)] [],
          ⟨2, 1, [0], 0, true, false, true⟩) :=
  ⟨rfl, rfl⟩

/-- Witness for C7: an ordinary own data key takes the plain-assignment
branch with no notification and no redefinition. -/
theorem C7_existing_key_branch_witness :
    setV 3 c7State (.plainObj 0 (some ⟨0, 0, 0⟩) true false
        [("a", .data (.num 0) true)] []) (.str "a") (.num 5)
      = .ok (.num 5, .plainObj 0 (some ⟨0, 0, 0⟩) true false
          (setField [("a", .data (.num 0) true)] "a" (.data (.num 5) true)) [],
          c7State) :=
  C7_existing_key_branch.2.1 3 c7State 0 ⟨0, 0, 0⟩ true [("a", .data (.num 0) true)] []
    "a" (.num 5) (.num 0) true rfl rfl
